import Mathlib

/-!
Verification of the query-admission gateway in
`packages/indexer-service/src/server/index.ts` (the POST `/subgraphs/id/:id`
handler of `createServer`).

The handler is embedded as a pure Lean function `handleQuery` from a request
model to the pair of (HTTP send effects, Query Processor invocations) it
performs.  Bytes are modelled as `List Nat` (each entry a byte value), JS
strings as lists of Unicode scalar values.  `req.body.toString()` is the WHATWG
UTF-8 decode with U+FFFD replacement, `new TextEncoder().encode(...)` is UTF-8
encoding; both are implemented below.  External collaborators that the source
only calls (the keccak256 hash, the `SubgraphDeploymentID` constructor, the
Query Processor itself) are modelled from the spec, as documented on each
definition.
-/

namespace Indexer

/-- WHATWG UTF-8 decoding of one character: given the first byte `b` and the
remaining bytes `rest`, return `(codePoint, bytesConsumed, wellFormed)`.
On a malformed sequence the code point is U+FFFD (0xFFFD), the consumed bytes
are the maximal well-formed prefix of the sequence (at least the first byte),
and the flag is `false`.  This models what `Buffer.prototype.toString('utf8')`
does in the source line `const query = req.body.toString()`. -/
def utf8DecodeOne (b : Nat) (rest : List Nat) : Nat × Nat × Bool :=
  if b < 0x80 then (b, 1, true)
  else if 0xC2 ≤ b ∧ b ≤ 0xDF then
    match rest with
    | c1 :: _ =>
      if 0x80 ≤ c1 ∧ c1 ≤ 0xBF then ((b - 0xC0) * 0x40 + (c1 - 0x80), 2, true)
      else (0xFFFD, 1, false)
    | [] => (0xFFFD, 1, false)
  else if 0xE0 ≤ b ∧ b ≤ 0xEF then
    match rest with
    | c1 :: rest1 =>
      if (if b = 0xE0 then 0xA0 else 0x80) ≤ c1 ∧ c1 ≤ (if b = 0xED then 0x9F else 0xBF) then
        match rest1 with
        | c2 :: _ =>
          if 0x80 ≤ c2 ∧ c2 ≤ 0xBF then
            ((b - 0xE0) * 0x1000 + (c1 - 0x80) * 0x40 + (c2 - 0x80), 3, true)
          else (0xFFFD, 2, false)
        | [] => (0xFFFD, 2, false)
      else (0xFFFD, 1, false)
    | [] => (0xFFFD, 1, false)
  else if 0xF0 ≤ b ∧ b ≤ 0xF4 then
    match rest with
    | c1 :: rest1 =>
      if (if b = 0xF0 then 0x90 else 0x80) ≤ c1 ∧ c1 ≤ (if b = 0xF4 then 0x8F else 0xBF) then
        match rest1 with
        | c2 :: rest2 =>
          if 0x80 ≤ c2 ∧ c2 ≤ 0xBF then
            match rest2 with
            | c3 :: _ =>
              if 0x80 ≤ c3 ∧ c3 ≤ 0xBF then
                ((b - 0xF0) * 0x40000 + (c1 - 0x80) * 0x1000 + (c2 - 0x80) * 0x40 + (c3 - 0x80),
                 4, true)
              else (0xFFFD, 3, false)
            | [] => (0xFFFD, 3, false)
          else (0xFFFD, 2, false)
        | [] => (0xFFFD, 2, false)
      else (0xFFFD, 1, false)
    | [] => (0xFFFD, 1, false)
  else (0xFFFD, 1, false)

/-- Fuel-indexed UTF-8 decoding loop; one unit of fuel per decoded character.
Enough fuel is `bytes.length` because every step consumes at least one byte. -/
def utf8DecodeGo : Nat → List Nat → List Nat
  | 0, _ => []
  | _ + 1, [] => []
  | fuel + 1, b :: rest =>
    (utf8DecodeOne b rest).1 ::
      utf8DecodeGo fuel (rest.drop ((utf8DecodeOne b rest).2.1 - 1))

/-- UTF-8 decoding with replacement: `req.body.toString()` as a function from
the raw body bytes to the sequence of Unicode scalar values of the JS string. -/
def utf8DecodeReplace (bytes : List Nat) : List Nat :=
  utf8DecodeGo bytes.length bytes

/-- Fuel-indexed companion of `utf8DecodeGo`: `true` iff every decoded
character was well formed, i.e. the byte sequence is valid UTF-8. -/
def utf8WellFormedGo : Nat → List Nat → Bool
  | 0, bytes => bytes.isEmpty
  | _ + 1, [] => true
  | fuel + 1, b :: rest =>
    (utf8DecodeOne b rest).2.2 &&
      utf8WellFormedGo fuel (rest.drop ((utf8DecodeOne b rest).2.1 - 1))

/-- Validity of a byte sequence as UTF-8 (no replacement characters needed). -/
def utf8WellFormed (bytes : List Nat) : Bool :=
  utf8WellFormedGo bytes.length bytes

/-- UTF-8 encoding of one Unicode scalar value. -/
def utf8EncodeChar (c : Nat) : List Nat :=
  if c < 0x80 then [c]
  else if c < 0x800 then [0xC0 + c / 0x40, 0x80 + c % 0x40]
  else if c < 0x10000 then [0xE0 + c / 0x1000, 0x80 + c / 0x40 % 0x40, 0x80 + c % 0x40]
  else [0xF0 + c / 0x40000, 0x80 + c / 0x1000 % 0x40, 0x80 + c / 0x40 % 0x40, 0x80 + c % 0x40]

/-- UTF-8 encoding of a string (sequence of scalar values): the source's
`new TextEncoder().encode(query)`. -/
def utf8Encode (codePoints : List Nat) : List Nat :=
  codePoints.flatMap utf8EncodeChar

/-- Modelled from the spec: the Content Identifier Function (`utils.keccak256`
from ethers), an external deterministic collision-resistant 32-byte hash whose
internals the spec leaves out of scope.  It is modelled as an injective
function (the identity injection), so determinism is exact and any collision
exhibited below is caused by the gateway's own preprocessing of the input, not
by the hash. -/
def keccak256 (bytes : List Nat) : List Nat :=
  bytes

/-- Modelled from the spec: `subgraphId` is "an opaque identifier parsed from
the URL path".  The external constructor `new SubgraphDeploymentID(id)` from
`@graphprotocol/common-ts` is modelled as the identity on the identifier. -/
def SubgraphDeploymentID (id : String) : String :=
  id

/-- Shape of the value `req.headers[h]` in Express: absent (`undefined`), a
single string, or an array of strings from a duplicated header. -/
inductive HeaderValue where
  | absent : HeaderValue
  | single (s : String) : HeaderValue
  | multiple (vs : List String) : HeaderValue
deriving DecidableEq, Repr

/-- The parts of the incoming request the handler reads: the `:id` path
parameter, the raw body bytes, the source address `req.ip`, and the two
headers consumed by the gateway. -/
structure Request where
  id : String
  body : List Nat
  ip : String
  paymentIdHeader : HeaderValue
  stateChannelIdHeader : HeaderValue

/-- An invocation of the Query Processor, recording which operation was called
(`addPaidQuery` or `addFreeQuery`) and the argument object passed to it.
Modelled from the spec's collaborator interface:
`addPaidQuery({subgraphId, paymentId, query, requestCID})` and
`addFreeQuery({subgraphId, stateChannelId, query, requestCID})`. -/
inductive QPCall where
  | paid (subgraphDeploymentID : String) (paymentId : String)
      (query : List Nat) (requestCID : List Nat) : QPCall
  | free (subgraphDeploymentID : String) (stateChannelID : String)
      (query : List Nat) (requestCID : List Nat) : QPCall
deriving DecidableEq, Repr

/-- Whether a recorded invocation used the paid-execution operation. -/
def QPCall.isPaid : QPCall → Bool
  | QPCall.paid _ _ _ _ => true
  | QPCall.free _ _ _ _ => false

/-- Whether a recorded invocation used the free-execution operation. -/
def QPCall.isFree : QPCall → Bool
  | QPCall.paid _ _ _ _ => false
  | QPCall.free _ _ _ _ => true

/-- The `requestCID` argument of a recorded invocation. -/
def QPCall.requestCID : QPCall → List Nat
  | QPCall.paid _ _ _ cid => cid
  | QPCall.free _ _ _ cid => cid

/-- The `stateChannelID` argument of a recorded invocation, when present. -/
def QPCall.stateChannelId : QPCall → Option String
  | QPCall.paid _ _ _ _ => none
  | QPCall.free _ scid _ _ => some scid

/-- Modelled from the spec: the outcome of a Query Processor invocation
(`QueryProcessor` is declared in `../types`, not among the visible sources) —
either a returned `{status?, result}` or a thrown `{status?, message}`.  A JS
`number | undefined` status is an `Option Nat`. -/
inductive QPOutcome where
  | ok (status : Option Nat) (result : String) : QPOutcome
  | err (status : Option Nat) (message : String) : QPOutcome
deriving DecidableEq, Repr

/-- Body of a response: either the processor's result payload or an
`{error: message}` object. -/
inductive ResBody where
  | result (r : String) : ResBody
  | errorMsg (m : String) : ResBody
deriving DecidableEq, Repr

/-- One `res.status(s).contentType(ct).send(body)` effect. -/
structure Send where
  status : Nat
  contentType : String
  body : ResBody
deriving DecidableEq, Repr

/-- JavaScript `x || d` for `x : number | undefined`: `undefined` and the
falsy number `0` both select the default. -/
def statusOr (status : Option Nat) (dflt : Nat) : Nat :=
  match status with
  | none => dflt
  | some n => if n = 0 then dflt else n

/-- One 402 rejection: `res.status(402).contentType('application/json')
.send({ error: message })`. -/
def rejectWith (message : String) : Send :=
  { status := 402, contentType := "application/json", body := ResBody.errorMsg message }

/-- Outcome mapping shared by the paid and free branches (source lines
104–114 and 137–147): a returned result is sent with `response.status || 200`,
a thrown error with `e.status || 500` and body `{ error: e.message }`. -/
def mapOutcome : QPOutcome → Send
  | QPOutcome.ok status result =>
    { status := statusOr status 200, contentType := "application/json"
      body := ResBody.result result }
  | QPOutcome.err status message =>
    { status := statusOr status 500, contentType := "application/json"
      body := ResBody.errorMsg message }

/-- The POST `/subgraphs/id/:id` handler of `createServer`.  The environment
`qp` gives the Query Processor's outcome for each possible invocation.  The
result is the list of send effects (in order) and the list of Query Processor
invocations (in order).

Decision sequence, as in the source: a present but non-string payment header
is rejected first; then, when payment is required (source address not in the
whitelist) and the payment header is absent, the request is rejected; a
present single-string payment header selects the paid path regardless of the
whitelist; otherwise the free path validates the state channel header and
dispatches. -/
def handleQuery (whitelist : List String) (qp : QPCall → QPOutcome)
    (req : Request) : List Send × List QPCall :=
  let query := utf8DecodeReplace req.body
  let sid := SubgraphDeploymentID req.id
  match req.paymentIdHeader with
  | HeaderValue.multiple _ =>
    ([rejectWith "Invalid X-Graph-Payment-ID provided"], [])
  | HeaderValue.single paymentId =>
    let call := QPCall.paid sid paymentId query (keccak256 (utf8Encode query))
    ([mapOutcome (qp call)], [call])
  | HeaderValue.absent =>
    if !(whitelist.contains req.ip) then
      ([rejectWith "No X-Graph-Payment-ID provided"], [])
    else
      match req.stateChannelIdHeader with
      | HeaderValue.single stateChannelID =>
        let call := QPCall.free sid stateChannelID query (keccak256 (utf8Encode query))
        ([mapOutcome (qp call)], [call])
      | _ =>
        ([rejectWith "Invalid X-Graph-State-Channel-ID provided"], [])

/-- The content identifier the handler attaches to a dispatched request, as a
function of the raw body bytes: hash of the UTF-8 re-encoding of the lossily
decoded body. -/
def bodyCID (body : List Nat) : List Nat :=
  keccak256 (utf8Encode (utf8DecodeReplace body))

/-- Formalisation of the outcome-status rule as the claim words it: the
processor-supplied status is used whenever it is set, and the default (200 for
a returned result, 500 for a thrown error) applies only to an unset status. -/
def claimedOutcomeStatus : QPOutcome → Nat
  | QPOutcome.ok status _ => status.getD 200
  | QPOutcome.err status _ => status.getD 500

/-- Concrete whitelist used by the witnesses. -/
def wlW : List String := ["10.0.0.1"]

/-- Processor behavior: returns status 200 with a result. -/
def qpOk : QPCall → QPOutcome := fun _ => QPOutcome.ok (some 200) "result-ok"

/-- Processor behavior: throws status 429 with message "rate limited". -/
def qpErr429 : QPCall → QPOutcome := fun _ => QPOutcome.err (some 429) "rate limited"

/-- Processor behavior: returns a result with the falsy status 0. -/
def qpOkZero : QPCall → QPOutcome := fun _ => QPOutcome.ok (some 0) "r"

/-- Concrete request: whitelisted source, single payment header, duplicated
state channel header, body "ab". -/
def reqPaidW : Request :=
  { id := "Qm1", body := [97, 98], ip := "10.0.0.1"
    paymentIdHeader := HeaderValue.single "pay-42"
    stateChannelIdHeader := HeaderValue.multiple ["sc-a", "sc-b"] }

/-- Concrete request: non-whitelisted source, single payment header "pay-42",
body "a". -/
def reqPaidB : Request :=
  { id := "Qm1", body := [97], ip := "9.9.9.9"
    paymentIdHeader := HeaderValue.single "pay-42"
    stateChannelIdHeader := HeaderValue.absent }

/-- Concrete request: duplicated payment header from a whitelisted source. -/
def reqDupPayment : Request :=
  { id := "Qm1", body := [97], ip := "10.0.0.1"
    paymentIdHeader := HeaderValue.multiple ["p1", "p2"]
    stateChannelIdHeader := HeaderValue.single "sc-1" }

/-- Concrete request: no payment header, non-whitelisted source. -/
def reqNoPayment : Request :=
  { id := "Qm1", body := [97], ip := "9.9.9.9"
    paymentIdHeader := HeaderValue.absent
    stateChannelIdHeader := HeaderValue.single "sc-1" }

/-- Concrete request: free path with a valid state channel header "sc-1". -/
def reqFreeOk : Request :=
  { id := "Qm1", body := [97, 98], ip := "10.0.0.1"
    paymentIdHeader := HeaderValue.absent
    stateChannelIdHeader := HeaderValue.single "sc-1" }

/-- Concrete request: free path with the state channel header absent. -/
def reqFreeBadSC : Request :=
  { id := "Qm1", body := [97], ip := "10.0.0.1"
    paymentIdHeader := HeaderValue.absent
    stateChannelIdHeader := HeaderValue.absent }

/-- Concrete request: paid path whose body `[0xFF]` is not valid UTF-8. -/
def reqPaidInvalidBody : Request :=
  { id := "Qm1", body := [0xFF], ip := "9.9.9.9"
    paymentIdHeader := HeaderValue.single "pay-1"
    stateChannelIdHeader := HeaderValue.absent }

/-- The invocation `handleQuery wlW qpErr429 reqPaidB` performs. -/
def callB : QPCall := QPCall.paid "Qm1" "pay-42" [97] [97]

/-- Unfolding lemma: encoding a string encodes its first character and the
rest. -/
theorem utf8Encode_cons (c : Nat) (l : List Nat) :
    utf8Encode (c :: l) = utf8EncodeChar c ++ utf8Encode l := by
  simp [utf8Encode]

/-- A one-byte character re-encodes to itself. -/
theorem utf8EncodeChar_one (b : Nat) (hb : b < 0x80) : utf8EncodeChar b = [b] := by
  simp [utf8EncodeChar, hb]

/-- The scalar decoded from a well-formed two-byte sequence re-encodes to the
same two bytes. -/
theorem utf8EncodeChar_two (b c1 : Nat) (hb1 : 0xC2 ≤ b) (hb2 : b ≤ 0xDF)
    (hc1 : 0x80 ≤ c1) (hc2 : c1 ≤ 0xBF) :
    utf8EncodeChar ((b - 0xC0) * 0x40 + (c1 - 0x80)) = [b, c1] := by
  have h1 : ¬ ((b - 0xC0) * 0x40 + (c1 - 0x80) < 0x80) := by omega
  have h2 : (b - 0xC0) * 0x40 + (c1 - 0x80) < 0x800 := by omega
  simp only [utf8EncodeChar, if_neg h1, if_pos h2, List.cons.injEq, and_true]
  omega

/-- The scalar decoded from a well-formed three-byte sequence re-encodes to
the same three bytes. -/
theorem utf8EncodeChar_three (b c1 c2 : Nat) (hb1 : 0xE0 ≤ b) (hb2 : b ≤ 0xEF)
    (hc1 : 0x80 ≤ c1) (hc2 : c1 ≤ 0xBF) (hd1 : 0x80 ≤ c2) (hd2 : c2 ≤ 0xBF)
    (hlo : 0x800 ≤ (b - 0xE0) * 0x1000 + (c1 - 0x80) * 0x40 + (c2 - 0x80)) :
    utf8EncodeChar ((b - 0xE0) * 0x1000 + (c1 - 0x80) * 0x40 + (c2 - 0x80)) = [b, c1, c2] := by
  have h1 : ¬ ((b - 0xE0) * 0x1000 + (c1 - 0x80) * 0x40 + (c2 - 0x80) < 0x80) := by omega
  have h2 : ¬ ((b - 0xE0) * 0x1000 + (c1 - 0x80) * 0x40 + (c2 - 0x80) < 0x800) := by omega
  have h3 : (b - 0xE0) * 0x1000 + (c1 - 0x80) * 0x40 + (c2 - 0x80) < 0x10000 := by omega
  simp only [utf8EncodeChar, if_neg h1, if_neg h2, if_pos h3, List.cons.injEq, and_true]
  omega

/-- The scalar decoded from a well-formed four-byte sequence re-encodes to the
same four bytes. -/
theorem utf8EncodeChar_four (b c1 c2 c3 : Nat) (hb1 : 0xF0 ≤ b) (hb2 : b ≤ 0xF4)
    (hc1 : 0x80 ≤ c1) (hc2 : c1 ≤ 0xBF) (hd1 : 0x80 ≤ c2) (hd2 : c2 ≤ 0xBF)
    (he1 : 0x80 ≤ c3) (he2 : c3 ≤ 0xBF)
    (hlo : 0x10000 ≤
      (b - 0xF0) * 0x40000 + (c1 - 0x80) * 0x1000 + (c2 - 0x80) * 0x40 + (c3 - 0x80)) :
    utf8EncodeChar
        ((b - 0xF0) * 0x40000 + (c1 - 0x80) * 0x1000 + (c2 - 0x80) * 0x40 + (c3 - 0x80))
      = [b, c1, c2, c3] := by
  have h1 : ¬ ((b - 0xF0) * 0x40000 + (c1 - 0x80) * 0x1000 + (c2 - 0x80) * 0x40 + (c3 - 0x80)
      < 0x80) := by omega
  have h2 : ¬ ((b - 0xF0) * 0x40000 + (c1 - 0x80) * 0x1000 + (c2 - 0x80) * 0x40 + (c3 - 0x80)
      < 0x800) := by omega
  have h3 : ¬ ((b - 0xF0) * 0x40000 + (c1 - 0x80) * 0x1000 + (c2 - 0x80) * 0x40 + (c3 - 0x80)
      < 0x10000) := by omega
  simp only [utf8EncodeChar, if_neg h1, if_neg h2, if_neg h3, List.cons.injEq, and_true]
  omega

/-- Fuel-indexed round trip: a well-formed byte sequence decodes and
re-encodes to itself. -/
theorem utf8_roundtrip_go :
    ∀ (fuel : Nat) (bytes : List Nat), bytes.length ≤ fuel →
      utf8WellFormedGo fuel bytes = true →
      utf8Encode (utf8DecodeGo fuel bytes) = bytes := by
  intro fuel
  induction fuel with
  | zero =>
    intro bytes hlen _
    have hnil : bytes = [] := List.eq_nil_of_length_eq_zero (Nat.le_zero.mp hlen)
    subst hnil
    rfl
  | succ f ih =>
    intro bytes hlen hwf
    cases bytes with
    | nil => rfl
    | cons b rest =>
      have hlen' : rest.length ≤ f := by
        simp only [List.length_cons] at hlen
        omega
      by_cases hb0 : b < 0x80
      · have hd : utf8DecodeOne b rest = (b, 1, true) := by
          simp [utf8DecodeOne, hb0]
        simp only [utf8DecodeGo, utf8WellFormedGo, hd, Bool.true_and,
          Nat.sub_self, List.drop_zero] at hwf ⊢
        rw [utf8Encode_cons, utf8EncodeChar_one b hb0, ih rest hlen' hwf]
        rfl
      · by_cases hb1 : 0xC2 ≤ b ∧ b ≤ 0xDF
        · cases rest with
          | nil =>
            have hd : utf8DecodeOne b [] = (0xFFFD, 1, false) := by
              simp [utf8DecodeOne, hb0, hb1]
            simp only [utf8WellFormedGo, hd, Bool.false_and] at hwf
            exact absurd hwf (by decide)
          | cons c1 rest1 =>
            by_cases hc : 0x80 ≤ c1 ∧ c1 ≤ 0xBF
            · have hd : utf8DecodeOne b (c1 :: rest1)
                  = ((b - 0xC0) * 0x40 + (c1 - 0x80), 2, true) := by
                simp [utf8DecodeOne, hb0, hb1, hc]
              have hlen1 : rest1.length ≤ f := by
                simp only [List.length_cons] at hlen
                omega
              simp only [utf8DecodeGo, utf8WellFormedGo, hd, Bool.true_and] at hwf ⊢
              simp only [show (2 : Nat) - 1 = 1 from rfl, List.drop_succ_cons,
                List.drop_zero] at hwf ⊢
              rw [utf8Encode_cons, utf8EncodeChar_two b c1 hb1.1 hb1.2 hc.1 hc.2,
                ih rest1 hlen1 hwf]
              rfl
            · have hd : utf8DecodeOne b (c1 :: rest1) = (0xFFFD, 1, false) := by
                simp [utf8DecodeOne, hb0, hb1, hc]
              simp only [utf8WellFormedGo, hd, Bool.false_and] at hwf
              exact absurd hwf (by decide)
        · by_cases hb2 : 0xE0 ≤ b ∧ b ≤ 0xEF
          · cases rest with
            | nil =>
              have hd : utf8DecodeOne b [] = (0xFFFD, 1, false) := by
                simp [utf8DecodeOne, hb0, hb1, hb2]
              simp only [utf8WellFormedGo, hd, Bool.false_and] at hwf
              exact absurd hwf (by decide)
            | cons c1 rest1 =>
              by_cases hc1 : (if b = 0xE0 then 0xA0 else 0x80) ≤ c1 ∧
                  c1 ≤ (if b = 0xED then 0x9F else 0xBF)
              · cases rest1 with
                | nil =>
                  have hd : utf8DecodeOne b [c1] = (0xFFFD, 2, false) := by
                    simp [utf8DecodeOne, hb0, hb1, hb2, hc1]
                  simp only [utf8WellFormedGo, hd, Bool.false_and] at hwf
                  exact absurd hwf (by decide)
                | cons c2 rest2 =>
                  by_cases hc2 : 0x80 ≤ c2 ∧ c2 ≤ 0xBF
                  · have hd : utf8DecodeOne b (c1 :: c2 :: rest2)
                        = ((b - 0xE0) * 0x1000 + (c1 - 0x80) * 0x40 + (c2 - 0x80), 3, true) := by
                      simp [utf8DecodeOne, hb0, hb1, hb2, hc1, hc2]
                    have hc1lo : 0x80 ≤ c1 := by
                      by_cases hE : b = 0xE0 <;> simp [hE] at hc1 <;> omega
                    have hc1hi : c1 ≤ 0xBF := by
                      by_cases hE : b = 0xED <;> simp [hE] at hc1 <;> omega
                    have hlo : 0x800 ≤ (b - 0xE0) * 0x1000 + (c1 - 0x80) * 0x40 + (c2 - 0x80) := by
                      by_cases hE : b = 0xE0
                      · subst hE
                        simp at hc1
                        omega
                      · have hb2' : 0xE1 ≤ b := by
                          rcases hb2 with ⟨hA, hB⟩
                          omega
                        omega
                    have hlen1 : rest2.length ≤ f := by
                      simp only [List.length_cons] at hlen
                      omega
                    simp only [utf8DecodeGo, utf8WellFormedGo, hd, Bool.true_and] at hwf ⊢
                    simp only [show (3 : Nat) - 1 = 2 from rfl, List.drop_succ_cons,
                      List.drop_zero] at hwf ⊢
                    rw [utf8Encode_cons,
                      utf8EncodeChar_three b c1 c2 hb2.1 hb2.2 hc1lo hc1hi hc2.1 hc2.2 hlo,
                      ih rest2 hlen1 hwf]
                    rfl
                  · have hd : utf8DecodeOne b (c1 :: c2 :: rest2) = (0xFFFD, 2, false) := by
                      simp [utf8DecodeOne, hb0, hb1, hb2, hc1, hc2]
                    simp only [utf8WellFormedGo, hd, Bool.false_and] at hwf
                    exact absurd hwf (by decide)
              · have hd : utf8DecodeOne b (c1 :: rest1) = (0xFFFD, 1, false) := by
                  simp [utf8DecodeOne, hb0, hb1, hb2, hc1]
                simp only [utf8WellFormedGo, hd, Bool.false_and] at hwf
                exact absurd hwf (by decide)
          · by_cases hb3 : 0xF0 ≤ b ∧ b ≤ 0xF4
            · cases rest with
              | nil =>
                have hd : utf8DecodeOne b [] = (0xFFFD, 1, false) := by
                  simp [utf8DecodeOne, hb0, hb1, hb2, hb3]
                simp only [utf8WellFormedGo, hd, Bool.false_and] at hwf
                exact absurd hwf (by decide)
              | cons c1 rest1 =>
                by_cases hc1 : (if b = 0xF0 then 0x90 else 0x80) ≤ c1 ∧
                    c1 ≤ (if b = 0xF4 then 0x8F else 0xBF)
                · cases rest1 with
                  | nil =>
                    have hd : utf8DecodeOne b [c1] = (0xFFFD, 2, false) := by
                      simp [utf8DecodeOne, hb0, hb1, hb2, hb3, hc1]
                    simp only [utf8WellFormedGo, hd, Bool.false_and] at hwf
                    exact absurd hwf (by decide)
                  | cons c2 rest2 =>
                    by_cases hc2 : 0x80 ≤ c2 ∧ c2 ≤ 0xBF
                    · cases rest2 with
                      | nil =>
                        have hd : utf8DecodeOne b [c1, c2] = (0xFFFD, 3, false) := by
                          simp [utf8DecodeOne, hb0, hb1, hb2, hb3, hc1, hc2]
                        simp only [utf8WellFormedGo, hd, Bool.false_and] at hwf
                        exact absurd hwf (by decide)
                      | cons c3 rest3 =>
                        by_cases hc3 : 0x80 ≤ c3 ∧ c3 ≤ 0xBF
                        · have hd : utf8DecodeOne b (c1 :: c2 :: c3 :: rest3)
                              = ((b - 0xF0) * 0x40000 + (c1 - 0x80) * 0x1000 +
                                  (c2 - 0x80) * 0x40 + (c3 - 0x80), 4, true) := by
                            simp [utf8DecodeOne, hb0, hb1, hb2, hb3, hc1, hc2, hc3]
                          have hc1lo : 0x80 ≤ c1 := by
                            by_cases hE : b = 0xF0 <;> simp [hE] at hc1 <;> omega
                          have hc1hi : c1 ≤ 0xBF := by
                            by_cases hE : b = 0xF4 <;> simp [hE] at hc1 <;> omega
                          have hlo : 0x10000 ≤ (b - 0xF0) * 0x40000 + (c1 - 0x80) * 0x1000 +
                              (c2 - 0x80) * 0x40 + (c3 - 0x80) := by
                            by_cases hE : b = 0xF0
                            · subst hE
                              simp at hc1
                              omega
                            · have hb3' : 0xF1 ≤ b := by
                                rcases hb3 with ⟨hA, hB⟩
                                omega
                              omega
                          have hlen1 : rest3.length ≤ f := by
                            simp only [List.length_cons] at hlen
                            omega
                          simp only [utf8DecodeGo, utf8WellFormedGo, hd, Bool.true_and] at hwf ⊢
                          simp only [show (4 : Nat) - 1 = 3 from rfl, List.drop_succ_cons,
                            List.drop_zero] at hwf ⊢
                          rw [utf8Encode_cons,
                            utf8EncodeChar_four b c1 c2 c3 hb3.1 hb3.2 hc1lo hc1hi
                              hc2.1 hc2.2 hc3.1 hc3.2 hlo,
                            ih rest3 hlen1 hwf]
                          rfl
                        · have hd : utf8DecodeOne b (c1 :: c2 :: c3 :: rest3)
                              = (0xFFFD, 3, false) := by
                            simp [utf8DecodeOne, hb0, hb1, hb2, hb3, hc1, hc2, hc3]
                          simp only [utf8WellFormedGo, hd, Bool.false_and] at hwf
                          exact absurd hwf (by decide)
                    · have hd : utf8DecodeOne b (c1 :: c2 :: rest2) = (0xFFFD, 2, false) := by
                        simp [utf8DecodeOne, hb0, hb1, hb2, hb3, hc1, hc2]
                      simp only [utf8WellFormedGo, hd, Bool.false_and] at hwf
                      exact absurd hwf (by decide)
                · have hd : utf8DecodeOne b (c1 :: rest1) = (0xFFFD, 1, false) := by
                    simp [utf8DecodeOne, hb0, hb1, hb2, hb3, hc1]
                  simp only [utf8WellFormedGo, hd, Bool.false_and] at hwf
                  exact absurd hwf (by decide)
            · have hd : utf8DecodeOne b rest = (0xFFFD, 1, false) := by
                simp [utf8DecodeOne, hb0, hb1, hb2, hb3]
              simp only [utf8WellFormedGo, hd, Bool.false_and] at hwf
              exact absurd hwf (by decide)

/-- Round trip: a byte sequence that is valid UTF-8 is unchanged by decoding
with replacement followed by re-encoding. -/
theorem utf8_roundtrip (bytes : List Nat) (h : utf8WellFormed bytes = true) :
    utf8Encode (utf8DecodeReplace bytes) = bytes :=
  utf8_roundtrip_go bytes.length bytes le_rfl h

/-- Every mapped outcome is sent with the JSON content type. -/
theorem mapOutcome_contentType (o : QPOutcome) :
    (mapOutcome o).contentType = "application/json" := by
  cases o <;> rfl

/-- A dispatch branch sends a single response whose content type is JSON. -/
theorem all_json_single (o : QPOutcome) :
    ([mapOutcome o].all fun s => s.contentType == "application/json") = true := by
  cases o <;> rfl

/-- C1: a request whose payment-ID header is present as a single string takes
the paid path — the Query Processor is invoked exactly once, and that
invocation is the paid-execution operation `addPaidQuery` — even when the
source address is in the whitelist; a request whose payment-ID header is
absent never invokes the paid-execution operation. -/
theorem paid_path_selection (whitelist : List String) (qp : QPCall → QPOutcome)
    (req : Request) :
    (∀ pid, req.paymentIdHeader = HeaderValue.single pid →
      (handleQuery whitelist qp req).2.countP QPCall.isPaid = 1 ∧
      (handleQuery whitelist qp req).2.length = 1) ∧
    (req.paymentIdHeader = HeaderValue.absent →
      (handleQuery whitelist qp req).2.countP QPCall.isPaid = 0) := by
  obtain ⟨id, body, ip, pay, sc⟩ := req
  constructor
  · rintro pid rfl
    simp [handleQuery, QPCall.isPaid]
  · rintro rfl
    by_cases hw : ip ∈ whitelist
    · cases sc <;> simp [handleQuery, hw, QPCall.isPaid]
    · simp [handleQuery, hw]

/-- Witness for C1: a whitelisted caller that supplies the payment header
"pay-42" is still dispatched to the paid path, exactly once. -/
theorem paid_path_selection_witness :
    (handleQuery wlW qpOk reqPaidW).2.countP QPCall.isPaid = 1 ∧
    (handleQuery wlW qpOk reqPaidW).2.length = 1 :=
  (paid_path_selection wlW qpOk reqPaidW).1 "pay-42" rfl

/-- C2: a request whose payment-ID header is present but not a single string
(a duplicated header) is answered 402 with body
`{error: "Invalid X-Graph-Payment-ID provided"}`, whatever the whitelist says
about the source address, and no Query Processor operation is invoked. -/
theorem invalid_payment_header_rejected (whitelist : List String)
    (qp : QPCall → QPOutcome) (req : Request) (vs : List String)
    (h : req.paymentIdHeader = HeaderValue.multiple vs) :
    handleQuery whitelist qp req =
      ([rejectWith "Invalid X-Graph-Payment-ID provided"], []) := by
  obtain ⟨id, body, ip, pay, sc⟩ := req
  cases h
  rfl

/-- Witness for C2: a duplicated payment header from a whitelisted address is
rejected with no downstream call. -/
theorem invalid_payment_header_rejected_witness :
    handleQuery wlW qpOk reqDupPayment =
      ([rejectWith "Invalid X-Graph-Payment-ID provided"], []) :=
  invalid_payment_header_rejected wlW qpOk reqDupPayment ["p1", "p2"] rfl

/-- C3: a request from a source address not in the whitelist with no
payment-ID header is answered 402 with body
`{error: "No X-Graph-Payment-ID provided"}` and no Query Processor operation
is invoked. -/
theorem missing_payment_rejected (whitelist : List String)
    (qp : QPCall → QPOutcome) (req : Request)
    (h1 : req.paymentIdHeader = HeaderValue.absent)
    (h2 : whitelist.contains req.ip = false) :
    handleQuery whitelist qp req =
      ([rejectWith "No X-Graph-Payment-ID provided"], []) := by
  obtain ⟨id, body, ip, pay, sc⟩ := req
  cases h1
  have hw : ip ∉ whitelist := by simpa using h2
  simp [handleQuery, hw]

/-- Witness for C3: address 9.9.9.9 is not whitelisted and sends no payment
header, so the request is rejected with no downstream call. -/
theorem missing_payment_rejected_witness :
    handleQuery wlW qpOk reqNoPayment =
      ([rejectWith "No X-Graph-Payment-ID provided"], []) :=
  missing_payment_rejected wlW qpOk reqNoPayment rfl (by decide)

/-- C4: on the free path (payment header absent, source whitelisted), an
absent or duplicated state-channel header is answered 402 with body
`{error: "Invalid X-Graph-State-Channel-ID provided"}` — one message for both
shapes — with no Query Processor invocation; a single-string state-channel
header leads to exactly one invocation, a free one, carrying that state
channel ID. -/
theorem free_path_state_channel_validation (whitelist : List String)
    (qp : QPCall → QPOutcome) (req : Request)
    (h1 : req.paymentIdHeader = HeaderValue.absent)
    (h2 : whitelist.contains req.ip = true) :
    ((req.stateChannelIdHeader = HeaderValue.absent ∨
        (∃ vs, req.stateChannelIdHeader = HeaderValue.multiple vs)) →
      handleQuery whitelist qp req =
        ([rejectWith "Invalid X-Graph-State-Channel-ID provided"], [])) ∧
    (∀ scid, req.stateChannelIdHeader = HeaderValue.single scid →
      (handleQuery whitelist qp req).2.countP QPCall.isFree = 1 ∧
      (handleQuery whitelist qp req).2.length = 1 ∧
      (handleQuery whitelist qp req).2.map QPCall.stateChannelId = [some scid]) := by
  obtain ⟨id, body, ip, pay, sc⟩ := req
  cases h1
  have hw : ip ∈ whitelist := by simpa using h2
  constructor
  · rintro (h | ⟨vs, h⟩) <;> cases h <;> simp [handleQuery, hw]
  · rintro scid rfl
    simp [handleQuery, hw, QPCall.isFree, QPCall.stateChannelId]

/-- Witness for C4: an absent state-channel header on the free path is
rejected with the fixed message; the header "sc-1" is dispatched with that
state channel ID. -/
theorem free_path_state_channel_validation_witness :
    handleQuery wlW qpOk reqFreeBadSC =
      ([rejectWith "Invalid X-Graph-State-Channel-ID provided"], []) ∧
    (handleQuery wlW qpOk reqFreeOk).2.map QPCall.stateChannelId = [some "sc-1"] :=
  ⟨(free_path_state_channel_validation wlW qpOk reqFreeBadSC rfl (by decide)).1
      (Or.inl rfl),
   ((free_path_state_channel_validation wlW qpOk reqFreeOk rfl (by decide)).2
      "sc-1" rfl).2.2⟩

/-- C8: the handler produces exactly one send effect on every input, and
every send carries the JSON content type; all validation outcomes are mapped
to a response rather than escaping. -/
theorem single_json_response (whitelist : List String)
    (qp : QPCall → QPOutcome) (req : Request) :
    (handleQuery whitelist qp req).1.length = 1 ∧
    ((handleQuery whitelist qp req).1.all
      (fun s => s.contentType == "application/json")) = true := by
  obtain ⟨id, body, ip, pay, sc⟩ := req
  cases pay with
  | multiple vs => exact ⟨rfl, rfl⟩
  | single pid => exact ⟨rfl, all_json_single _⟩
  | absent =>
    by_cases hw : ip ∈ whitelist
    · cases sc with
      | single scid =>
        refine ⟨?_, ?_⟩ <;>
          simp only [handleQuery, List.elem_eq_mem, decide_eq_true hw, Bool.not_true,
            Bool.false_eq_true, if_false]
        · rfl
        · exact all_json_single _
      | absent => simp [handleQuery, hw, rejectWith]
      | multiple vs => simp [handleQuery, hw, rejectWith]
    · simp [handleQuery, hw, rejectWith]

/-- C9: on the paid path the state-channel header is never inspected — for a
request with a single-string payment header the handler's full behavior is
unchanged under any replacement of the state-channel header. -/
theorem paid_path_ignores_state_channel (whitelist : List String)
    (qp : QPCall → QPOutcome) (req : Request) (pid : String) (v : HeaderValue)
    (h : req.paymentIdHeader = HeaderValue.single pid) :
    handleQuery whitelist qp { req with stateChannelIdHeader := v } =
      handleQuery whitelist qp req := by
  obtain ⟨id, body, ip, pay, sc⟩ := req
  cases h
  rfl

/-- Witness for C9: replacing the state-channel header of a paid request with
a duplicated (malformed) header leaves the behavior unchanged. -/
theorem paid_path_ignores_state_channel_witness :
    handleQuery wlW qpOk
        { reqPaidW with stateChannelIdHeader := HeaderValue.multiple ["x", "y"] } =
      handleQuery wlW qpOk reqPaidW :=
  paid_path_ignores_state_channel wlW qpOk reqPaidW "pay-42"
    (HeaderValue.multiple ["x", "y"]) rfl

/-- Counterexample to C5: for the body `[0xFF]` — not valid UTF-8 — the paid
dispatch carries `requestCID = keccak256([0xEF, 0xBF, 0xBD])` (the hash of the
UTF-8 re-encoding of the replacement character produced by
`req.body.toString()`), which differs from `keccak256` of the raw body bytes
even under the injective model of the hash. -/
theorem cid_not_raw_bytes_cex :
    (handleQuery wlW qpOk reqPaidInvalidBody).2.map QPCall.requestCID
        = [[0xEF, 0xBF, 0xBD]] ∧
    keccak256 reqPaidInvalidBody.body = [0xFF] ∧
    [[0xEF, 0xBF, 0xBD]] ≠ [[(0xFF : Nat)]] := by
  decide

/-- C5 (amended): the content identifier passed to the Query Processor is the
hash of the UTF-8 re-encoding of the lossily decoded body; whenever the raw
body bytes are valid UTF-8 this coincides with the hash of the raw, undecoded
query bytes, on the paid and free paths alike. -/
theorem cid_matches_raw_bytes_on_wellformed (whitelist : List String)
    (qp : QPCall → QPOutcome) (req : Request)
    (h : utf8WellFormed req.body = true) :
    (handleQuery whitelist qp req).2.map QPCall.requestCID =
      List.replicate (handleQuery whitelist qp req).2.length (keccak256 req.body) := by
  obtain ⟨id, body, ip, pay, sc⟩ := req
  have hr : utf8Encode (utf8DecodeReplace body) = body := utf8_roundtrip body h
  cases pay with
  | multiple vs => rfl
  | single pid => simp [handleQuery, QPCall.requestCID, hr]
  | absent =>
    by_cases hw : ip ∈ whitelist
    · cases sc <;> simp [handleQuery, hw, QPCall.requestCID, hr]
    · simp [handleQuery, hw]

/-- Witness for amended C5: the body "ab" is valid UTF-8 and its paid
dispatch carries the hash of the raw bytes. -/
theorem cid_matches_raw_bytes_on_wellformed_witness :
    (handleQuery wlW qpOk reqPaidW).2.map QPCall.requestCID =
      List.replicate (handleQuery wlW qpOk reqPaidW).2.length
        (keccak256 reqPaidW.body) :=
  cid_matches_raw_bytes_on_wellformed wlW qpOk reqPaidW (by decide)

/-- Counterexample to C6: a returned result whose status field is 0 — set,
but falsy — is answered with status 200, not with the set status 0 as the
claim's rule ("that status, defaulting only when unset") dictates. -/
theorem outcome_status_zero_cex :
    (handleQuery wlW qpOkZero reqPaidB).1.map Send.status = [200] ∧
    claimedOutcomeStatus (qpOkZero callB) = 0 ∧ (200 : Nat) ≠ 0 := by
  decide

/-- C6 (amended): whenever the handler performed exactly the Query Processor
invocation `c`, its single response is the outcome mapping of the processor's
outcome for `c`: on a returned result, status `response.status || 200`, JSON
content type and the result as payload; on a thrown error, status
`e.status || 500`, JSON content type and body `{error: message}` — where
`x || d` takes the default when the status is unset or zero. -/
theorem outcome_mapping_amended (whitelist : List String)
    (qp : QPCall → QPOutcome) (req : Request) (c : QPCall)
    (h : (handleQuery whitelist qp req).2 = [c]) :
    (handleQuery whitelist qp req).1 = [mapOutcome (qp c)] := by
  obtain ⟨id, body, ip, pay, sc⟩ := req
  cases pay with
  | multiple vs => exact absurd h (by simp [handleQuery])
  | single pid =>
    simp only [handleQuery, List.cons.injEq, and_true] at h
    simp [handleQuery, h]
  | absent =>
    by_cases hw : ip ∈ whitelist
    · cases sc with
      | single scid =>
        simp only [handleQuery, List.elem_eq_mem, decide_eq_true hw, Bool.not_true,
          Bool.false_eq_true, if_false, List.cons.injEq, and_true] at h ⊢
        rw [h]
      | absent => exact absurd h (by simp [handleQuery, hw])
      | multiple vs => exact absurd h (by simp [handleQuery, hw])
    · exact absurd h (by simp [handleQuery, hw])

/-- Witness for amended C6 (the spec's Scenario B): the processor throws
`{status: 429, message: "rate limited"}` and the paid request is answered
with exactly the mapped outcome — 429 and `{"error":"rate limited"}`. -/
theorem outcome_mapping_amended_witness :
    (handleQuery wlW qpErr429 reqPaidB).1 = [mapOutcome (qpErr429 callB)] :=
  outcome_mapping_amended wlW qpErr429 reqPaidB callB (by decide)

/-- Counterexample to C7: the byte sequences `[0xFF]` and `[0xFE]` are
distinct, yet the gateway's composition of body decoding and hashing gives
them the same content identifier — both decode to the replacement character —
and the two full requests are observationally identical, under a hash model
with no collisions at all. -/
theorem cid_collision_cex :
    bodyCID [0xFF] = bodyCID [0xFE] ∧ ([0xFF] : List Nat) ≠ [0xFE] ∧
    handleQuery wlW qpOk reqPaidInvalidBody =
      handleQuery wlW qpOk { reqPaidInvalidBody with body := [0xFE] } := by
  decide

/-- C7 (amended): the realized content identifier is deterministic on all
byte sequences, and injective on byte sequences that are valid UTF-8: two
distinct well-formed bodies never share an identifier (under the injective
model of the hash); distinct bodies whose lossy decodings coincide do
collide, as the counterexample shows. -/
theorem cid_deterministic_inj_on_wellformed (b1 b2 : List Nat) :
    (b1 = b2 → bodyCID b1 = bodyCID b2) ∧
    (utf8WellFormed b1 = true → utf8WellFormed b2 = true → b1 ≠ b2 →
      bodyCID b1 ≠ bodyCID b2) := by
  constructor
  · rintro rfl
    rfl
  · intro h1 h2 hne
    have e1 : bodyCID b1 = b1 := by
      simpa [bodyCID, keccak256] using utf8_roundtrip b1 h1
    have e2 : bodyCID b2 = b2 := by
      simpa [bodyCID, keccak256] using utf8_roundtrip b2 h2
    rw [e1, e2]
    exact hne

/-- Witness for amended C7: the valid UTF-8 bodies "a" and "b" receive
distinct content identifiers. -/
theorem cid_deterministic_inj_on_wellformed_witness :
    bodyCID [97] ≠ bodyCID [98] :=
  (cid_deterministic_inj_on_wellformed [97] [98]).2 (by decide) (by decide) (by decide)

/-- C10: the processor-supplied status is passed through only when truthy —
a returned result with the falsy status 0 is answered 200 and a thrown error
with status 0 is answered 500, on the paid and the free path alike. -/
theorem falsy_status_defaults (whitelist : List String) (reqP reqF : Request)
    (pid scid r m : String)
    (hp : reqP.paymentIdHeader = HeaderValue.single pid)
    (hf1 : reqF.paymentIdHeader = HeaderValue.absent)
    (hf2 : whitelist.contains reqF.ip = true)
    (hf3 : reqF.stateChannelIdHeader = HeaderValue.single scid) :
    ((handleQuery whitelist (fun _ => QPOutcome.ok (some 0) r) reqP).1.map
        Send.status = [200]) ∧
    ((handleQuery whitelist (fun _ => QPOutcome.err (some 0) m) reqP).1.map
        Send.status = [500]) ∧
    ((handleQuery whitelist (fun _ => QPOutcome.ok (some 0) r) reqF).1.map
        Send.status = [200]) ∧
    ((handleQuery whitelist (fun _ => QPOutcome.err (some 0) m) reqF).1.map
        Send.status = [500]) := by
  obtain ⟨idP, bodyP, ipP, payP, scP⟩ := reqP
  obtain ⟨idF, bodyF, ipF, payF, scF⟩ := reqF
  cases hp
  cases hf1
  cases hf3
  have hw : ipF ∈ whitelist := by simpa using hf2
  refine ⟨?_, ?_, ?_, ?_⟩ <;> simp [handleQuery, hw, mapOutcome, statusOr]

/-- Witness for C10: concrete paid and free requests whose processor outcome
carries status 0 are answered 200 (result) and 500 (error). -/
theorem falsy_status_defaults_witness :
    ((handleQuery wlW (fun _ => QPOutcome.ok (some 0) "r") reqPaidB).1.map
        Send.status = [200]) ∧
    ((handleQuery wlW (fun _ => QPOutcome.err (some 0) "boom") reqPaidB).1.map
        Send.status = [500]) ∧
    ((handleQuery wlW (fun _ => QPOutcome.ok (some 0) "r") reqFreeOk).1.map
        Send.status = [200]) ∧
    ((handleQuery wlW (fun _ => QPOutcome.err (some 0) "boom") reqFreeOk).1.map
        Send.status = [500]) :=
  falsy_status_defaults wlW reqPaidB reqFreeOk "pay-42" "sc-1" "r" "boom"
    rfl rfl (by decide) rfl

end Indexer
